import Mathlib

/-!
Verification of the metrics store of the CEO Briefing Tool, comparison engine,
multi-file merge loop and EML body extraction, shallowly embedded from
`src/utils/db.py`, `src/app.py` and `src/utils/eml.py`.

The SQLite table `weekly_metrics (week_id, brand, sales_var, margin_var,
PRIMARY KEY (week_id, brand))` is modelled as a list of rows in storage
order; `INSERT OR REPLACE` deletes the conflicting row and appends the new
one.  Python dicts are modelled as association lists whose keys are
assumed distinct (`Nodup`), with `dict.update` keeping the position of
existing keys and appending new ones.
-/

namespace CEOBrief

/-- One row of the `weekly_metrics` table (`src/utils/db.py`, `init_db`). -/
structure MetricRow where
  week_id : String
  brand : String
  sales_var : String
  margin_var : String
deriving DecidableEq, Repr

/-- The `weekly_metrics` table in storage (rowid) order. -/
abbrev Store := List MetricRow

/-- The per-brand payload of an extracted metrics mapping:
`{"sales": ..., "margin": ...}` where either field may be missing
(Python `data.get("sales", "N/A")`). -/
structure BrandData where
  sales : Option String
  margin : Option String
deriving DecidableEq, Repr

/-- A Python dict `{brand: {"sales": ..., "margin": ...}}` as an ordered
association list; callers assume the keys are distinct. -/
abbrev MetricsDict := List (String × BrandData)

/-- Keys (brands) of a metrics dict. -/
def dictKeys (M : MetricsDict) : List String := M.map Prod.fst

/-- Does row `q` have primary key `(w, b)`? -/
def rowKeyMatches (w b : String) (q : MetricRow) : Bool :=
  q.week_id == w && q.brand == b

/-- Models `INSERT OR REPLACE INTO weekly_metrics`: the row conflicting on the
primary key `(week_id, brand)` is deleted and the new row appended. -/
def insertOrReplace (S : Store) (r : MetricRow) : Store :=
  (S.filter fun q => !(rowKeyMatches r.week_id r.brand q)) ++ [r]

/-- The row written by `save_metrics` for one `(brand, data)` item:
missing `sales`/`margin` fields default to the sentinel `"N/A"`. -/
def mkRow (week_id : String) (p : String × BrandData) : MetricRow :=
  ⟨week_id, p.1, p.2.sales.getD "N/A", p.2.margin.getD "N/A"⟩

/-- Models `save_metrics(week_id, metrics_data)` from `src/utils/db.py`:
one `INSERT OR REPLACE` per dict item, in iteration order. -/
def save_metrics (S : Store) (week_id : String) (metrics_data : MetricsDict) : Store :=
  metrics_data.foldl (fun acc p => insertOrReplace acc (mkRow week_id p)) S

/-- One row of the DataFrame returned by `get_metrics`. -/
structure MetricsEntry where
  brand : String
  sales_var : String
  margin_var : String
deriving DecidableEq, Repr

/-- Models `get_metrics(week_id)`: `SELECT brand, sales_var, margin_var FROM
weekly_metrics WHERE week_id = ?`, rows in storage order. -/
def get_metrics (S : Store) (week_id : String) : List MetricsEntry :=
  (S.filter fun q => q.week_id == week_id).map fun q => ⟨q.brand, q.sales_var, q.margin_var⟩

/-- Models `get_all_weeks()`: `SELECT DISTINCT week_id FROM weekly_metrics ORDER
BY week_id DESC` — the distinct week ids sorted descending. -/
def get_all_weeks (S : Store) : List String :=
  ((S.map MetricRow.week_id).dedup).insertionSort (fun a b => b ≤ a)

/-- One row of the comparison view: a field is `none` exactly when the
corresponding column is missing / null in the returned DataFrame. -/
structure ComparisonRow where
  brand : String
  w1_sales : Option String
  w1_margin : Option String
  w2_sales : Option String
  w2_margin : Option String
deriving DecidableEq, Repr

/-- The merged row for a week-1 entry `r`: matched by brand against the
week-2 frame, with week-2 fields null when no match exists. -/
def leftRow (df2 : List MetricsEntry) (r : MetricsEntry) : ComparisonRow :=
  match df2.find? (fun q => q.brand == r.brand) with
  | some q => ⟨r.brand, some r.sales_var, some r.margin_var, some q.sales_var, some q.margin_var⟩
  | none => ⟨r.brand, some r.sales_var, some r.margin_var, none, none⟩

/-- Models `pd.merge(df1, df2, on="brand", how="outer")`: rows of `df1` in order,
each matched against `df2` by brand, followed by the unmatched rows of
`df2`. -/
def outerMerge (df1 df2 : List MetricsEntry) : List ComparisonRow :=
  df1.map (leftRow df2)
  ++ ((df2.filter fun q => !(df1.any fun r => r.brand == q.brand)).map fun q =>
    ⟨q.brand, none, none, some q.sales_var, some q.margin_var⟩)

/-- Models `get_comparison_data(week1_id, week2_id)` from `src/utils/db.py`:
outer-merge when both weeks have rows, otherwise return the non-empty
frame of the non-empty week unchanged (its missing-week columns are absent), otherwise
an empty frame. -/
def get_comparison_data (S : Store) (week1_id week2_id : String) : List ComparisonRow :=
  let df1 := get_metrics S week1_id
  let df2 := get_metrics S week2_id
  if df1 ≠ [] ∧ df2 ≠ [] then
    outerMerge df1 df2
  else if df1 ≠ [] then
    df1.map fun r => ⟨r.brand, some r.sales_var, some r.margin_var, none, none⟩
  else if df2 ≠ [] then
    df2.map fun q => ⟨q.brand, none, none, some q.sales_var, some q.margin_var⟩
  else
    []

/-- Well-formedness of the table: the primary key `(week_id, brand)` is
unique, as enforced by the SQLite constraint `PRIMARY KEY (week_id, brand)`. -/
def WellFormed (S : Store) : Prop :=
  (S.map fun r => (r.week_id, r.brand)).Nodup

instance (S : Store) : Decidable (WellFormed S) := by
  unfold WellFormed; infer_instance

/-! ### The generation action of `src/app.py` (`main`, generation logic)

Per uploaded file the action calls `extract_metrics_from_file` (which may
raise: none of the provider calls in `src/utils/llm.py` catch exceptions)
and then `json.loads` on the cleaned output.  Only `json.JSONDecodeError`
is caught inside the loop (producing `st.warning` and continuing); any
other exception propagates to the outer `try`, which reports `st.error`
and aborts the action before `save_metrics` is reached.  On success the
parsed dict is merged into the accumulator via `dict.update`. -/

/-- Models `d[k] = v` on a Python dict: an existing key keeps its position and
gets the new value, a new key is appended. -/
def dictInsert (d : MetricsDict) (k : String) (v : BrandData) : MetricsDict :=
  if k ∈ dictKeys d then
    d.map fun p => if p.1 = k then (k, v) else p
  else
    d ++ [(k, v)]

/-- Models `d1.update(d2)` on Python dicts: items of `d2` are assigned into `d1`
left to right. -/
def dictUpdate (d1 d2 : MetricsDict) : MetricsDict :=
  d2.foldl (fun acc p => dictInsert acc p.1 p.2) d1

/-- Models the `d.get(k)` / `d[k]` lookup on a Python dict (first entry with the
key; a dict holds each key once). -/
def lookupDict : MetricsDict → String → Option BrandData
  | [], _ => none
  | p :: d, b => if p.1 = b then some p.2 else lookupDict d b

/-- The empty dict folded with `update` over the per-file dicts, in caller order. -/
def mergeDicts (files : List MetricsDict) : MetricsDict :=
  files.foldl dictUpdate []

/-- The outcome of `extract_metrics_from_file` + `json.loads` for one
uploaded file. -/
inductive FileOutcome
  /-- the provider call raised (network/auth/SDK error) -/
  | providerError
  /-- the provider returned a string `json.loads` rejects -/
  | badJson
  /-- `json.loads` succeeded with this dict -/
  | parsed (d : MetricsDict)
deriving DecidableEq, Repr

/-- The outcome of the `generate_email` call. -/
inductive GenOutcome
  | ok (text : String)
  | genError (e : String)
deriving DecidableEq, Repr

/-- State of the extraction loop when it ends or aborts. -/
structure LoopResult where
  merged : MetricsDict
  warnings : Nat
  aborted : Bool
deriving DecidableEq, Repr

/-- The `for idx, m_file in enumerate(metrics_files)` loop of `main`:
`badJson` adds a `st.warning` and continues, `parsed d` merges `d` into
the accumulator, `providerError` escapes to the outer `try` and aborts. -/
def mergeFiles (acc : MetricsDict) (warns : Nat) : List FileOutcome → LoopResult
  | [] => ⟨acc, warns, false⟩
  | .providerError :: _ => ⟨acc, warns, true⟩
  | .badJson :: rest => mergeFiles acc (warns + 1) rest
  | .parsed d :: rest => mergeFiles (dictUpdate acc d) warns rest

/-- Observable result of one generation action. -/
structure ActionResult where
  store : Store
  warnings : Nat
  fatalError : Bool
  emailGenerated : Bool
deriving DecidableEq, Repr

/-- The whole generation action of `main`: run the extraction loop; if it
aborted, `st.error` fires and the store is untouched; otherwise
`save_metrics` commits the merged dict and `generate_email` runs, whose
failure is reported by the outer `except` but cannot undo the commit. -/
def run_action (S : Store) (week : String) (files : List FileOutcome)
    (gen : GenOutcome) : ActionResult :=
  let L := mergeFiles [] 0 files
  if L.aborted then
    ⟨S, L.warnings, true, false⟩
  else
    let S' := save_metrics S week L.merged
    match gen with
    | .ok _ => ⟨S', L.warnings, false, true⟩
    | .genError _ => ⟨S', L.warnings, true, false⟩

/-! ### `parse_eml_content` from `src/utils/eml.py`

The `email` library objects are abstracted: a parsed message is either
multipart (with the flattened `msg.walk()` part list; each part carries
its content type, the `str(part.get("Content-Disposition"))` string and
its text content — only `text/plain` parts are ever read there, and
`get_content()` on a text part returns `str`) or single-part.  For a
single-part message `msg.get_content()` under `policy.default`
(`raw_data_manager`) returns `str` for a `text/*` content type but a
`bytes` object for other content types, so the payload of a single-part
message is a string or a byte sequence.  `parsebytes` and content access
may raise, which the enclosing `try` turns into an error string. -/

/-- One part yielded by `msg.walk()`. -/
structure EmlPart where
  contentType : String
  contentDisposition : String
  content : String
deriving DecidableEq, Repr

/-- What `msg.get_content()` hands back for a single-part message: text
for `text/*` content types, raw bytes otherwise. -/
inductive Payload
  | text (s : String)
  | binary (bs : List Nat)
deriving DecidableEq, Repr

/-- A parsed email message. -/
inductive EmlMsg
  | multipart (parts : List EmlPart)
  | single (content : Payload)
deriving DecidableEq, Repr

/-- What `parse_eml_content` can hand back: a Python `str`, or — via
`body.strip()` on a bytes payload — a Python `bytes` object. -/
inductive EmlResult
  | str (s : String)
  | bytes (bs : List Nat)
deriving DecidableEq, Repr

/-- Outcome of `BytesParser(...).parsebytes` and the body walk: either a
message, or the exception text caught by the `except` clause. -/
inductive ParseOutcome
  | failure (e : String)
  | ok (msg : EmlMsg)
deriving DecidableEq, Repr

/-- Is `pat` a contiguous prefix of some suffix of `l`? -/
def listIsInfix (pat : List Char) : List Char → Bool
  | [] => pat.isEmpty
  | c :: rest => pat.isPrefixOf (c :: rest) || listIsInfix pat rest

/-- Is `pat` a contiguous substring of `s` (Python `pat in s`)? -/
def strContains (s pat : String) : Bool :=
  listIsInfix pat.toList s.toList

/-- The `body` variable right before the final `return`: for multipart,
the content of the first `text/plain` part whose disposition does not
contain `"attachment"` (the initial `""` if none); for single-part, the
`get_content()` payload. -/
def emlBody : EmlMsg → Payload
  | .multipart parts =>
    match parts.find? (fun p => p.contentType == "text/plain"
        && !(strContains p.contentDisposition "attachment")) with
    | some p => .text p.content
    | none => .text ""
  | .single c => c

/-- Is a `9`, `10`, `11`, `12`, `13` or `32` byte, the ASCII whitespace
`bytes.strip()` removes by default? -/
def isWsByte (b : Nat) : Bool :=
  b == 9 || b == 10 || b == 11 || b == 12 || b == 13 || b == 32

/-- Models `bytes.strip()`: drop ASCII whitespace bytes from both ends. -/
def bytesStrip (bs : List Nat) : List Nat :=
  ((bs.dropWhile isWsByte).reverse.dropWhile isWsByte).reverse

/-- Python truthiness of the `body` value: a non-empty `str` or a
non-empty `bytes`. -/
def payloadTruthy : Payload → Bool
  | .text s => !(s == "")
  | .binary bs => !bs.isEmpty

/-- Models `body.strip()`: `str.strip()` on text, `bytes.strip()` on a
bytes payload — the latter stays a bytes object. -/
def payloadStrip : Payload → EmlResult
  | .text s => .str s.trim
  | .binary bs => .bytes (bytesStrip bs)

/-- Models `parse_eml_content(file_bytes)`: returns `body.strip()` when
`body` is truthy (a `str`, or a `bytes` object for a binary single-part
payload), the fallback string when it is falsy, and an error string when
parsing raised. -/
def parse_eml_content : ParseOutcome → EmlResult
  | .failure e => .str ("[Error parsing EML: " ++ e ++ "]")
  | .ok msg =>
    let body := emlBody msg
    if payloadTruthy body then payloadStrip body
    else .str "[Could not extract text from EML]"

/-! ### Supporting lemmas on the store -/

theorem strBeq_comm (a b : String) : (a == b) = (b == a) := by
  by_cases h : a = b
  · subst h; rfl
  · have h1 : (a == b) = false := beq_eq_false_iff_ne.mpr h
    have h2 : (b == a) = false := beq_eq_false_iff_ne.mpr (Ne.symm h)
    rw [h1, h2]

/-- Does the primary key of row `q` collide with week `week` and a brand
occurring in `M`?  Exactly the rows `save_metrics week M` overwrites. -/
def keyInDict (week : String) (M : MetricsDict) (q : MetricRow) : Bool :=
  q.week_id == week && M.any (fun p => p.1 == q.brand)

theorem keyInDict_cons (week : String) (p : String × BrandData) (M : MetricsDict)
    (q : MetricRow) :
    keyInDict week (p :: M) q = (rowKeyMatches week p.1 q || keyInDict week M q) := by
  simp only [keyInDict, rowKeyMatches, List.any_cons, Bool.and_or_distrib_left,
    strBeq_comm p.1 q.brand]

theorem any_key_eq_false {M : MetricsDict} {b : String} (h : b ∉ dictKeys M) :
    M.any (fun p => p.1 == b) = false := by
  rw [List.any_eq_false]
  intro p hp hb
  exact h (List.mem_map.mpr ⟨p, hp, beq_iff_eq.mp hb⟩)

/-- Normal form of `save_metrics`: the rows whose key collides with the
dict are deleted, and the rows of the dict are appended in iteration order. -/
theorem save_metrics_eq_filter_append (S : Store) (week : String) (M : MetricsDict)
    (hM : (dictKeys M).Nodup) :
    save_metrics S week M
      = S.filter (fun q => !(keyInDict week M q)) ++ M.map (mkRow week) := by
  induction M generalizing S with
  | nil =>
    simp [save_metrics, keyInDict]
  | cons p M ih =>
    have h1 : p.1 ∉ dictKeys M ∧ (dictKeys M).Nodup := List.nodup_cons.mp hM
    have step : save_metrics S week (p :: M)
        = save_metrics (insertOrReplace S (mkRow week p)) week M := rfl
    have hkeep : keyInDict week M (mkRow week p) = false := by
      simp [keyInDict, mkRow, any_key_eq_false h1.1]
    rw [step, ih _ h1.2, insertOrReplace, List.filter_append, List.filter_filter]
    have hcongr : ∀ q ∈ S,
        ((!(keyInDict week M q))
            && (!(rowKeyMatches (mkRow week p).week_id (mkRow week p).brand q)))
          = !(keyInDict week (p :: M) q) := by
      intro q _
      rw [keyInDict_cons, Bool.not_or, Bool.and_comm]
      rfl
    rw [List.filter_congr hcongr]
    simp [hkeep]

/-- Every row written by `save_metrics week M` has a key colliding with
`M`, hence is deleted again by the same filter. -/
theorem filter_map_mkRow_eq_nil (week : String) (M : MetricsDict) :
    (M.map (mkRow week)).filter (fun q => !(keyInDict week M q)) = [] := by
  rw [List.filter_eq_nil_iff]
  intro r hr
  obtain ⟨p, hp, rfl⟩ := List.mem_map.mp hr
  have hany : M.any (fun x => x.1 == (mkRow week p).brand) = true :=
    List.any_eq_true.mpr ⟨p, hp, beq_self_eq_true p.1⟩
  simp [keyInDict, mkRow, hany]
  exact ⟨p.2, hp⟩

/-- In the map part of the normal form, the unique entry of `M` with key
`b` is found by a primary-key search. -/
theorem find?_map_mkRow {week : String} {M : MetricsDict} (hM : (dictKeys M).Nodup)
    {b : String} {d : BrandData} (hmem : (b, d) ∈ M) :
    (M.map (mkRow week)).find? (fun q => rowKeyMatches week b q)
      = some (mkRow week (b, d)) := by
  induction M with
  | nil => cases hmem
  | cons p M ih =>
    rcases List.mem_cons.mp hmem with heq | hmem'
    · rw [← heq]
      simp [List.find?_cons, rowKeyMatches, mkRow]
    · have h1 := List.nodup_cons.mp hM
      have hpb : p.1 ≠ b := by
        intro h
        exact h1.1 (h ▸ List.mem_map.mpr ⟨(b, d), hmem', rfl⟩)
      have hhead : rowKeyMatches week b (mkRow week p) = false := by
        simp [rowKeyMatches, mkRow, hpb]
      rw [List.map_cons, List.find?_cons, hhead]
      exact ih h1.2 hmem'

/-- C5: applying `save_metrics` twice with the same week and dict leaves
exactly the same stored state as applying it once — the `INSERT OR
REPLACE` upsert is idempotent. -/
theorem save_metrics_idempotent (S : Store) (week : String) (M : MetricsDict)
    (hM : (dictKeys M).Nodup) :
    save_metrics (save_metrics S week M) week M = save_metrics S week M := by
  rw [save_metrics_eq_filter_append S week M hM,
      save_metrics_eq_filter_append _ week M hM, List.filter_append, List.filter_filter,
      filter_map_mkRow_eq_nil, List.append_nil,
      List.filter_congr (fun a (_ : a ∈ S) => Bool.and_self (!(keyInDict week M a)))]

/-- Witness for C5 at the concrete week `"2025-W1"` and a one-brand dict. -/
theorem save_metrics_idempotent_witness :
    save_metrics (save_metrics [] "2025-W1" [("FL", ⟨some "+5%", some "-2%"⟩)])
        "2025-W1" [("FL", ⟨some "+5%", some "-2%"⟩)]
      = save_metrics [] "2025-W1" [("FL", ⟨some "+5%", some "-2%"⟩)] :=
  save_metrics_idempotent [] "2025-W1" [("FL", ⟨some "+5%", some "-2%"⟩)] (by decide)

/-- C6: every brand entry of the dict gets a stored record, and whichever
of its `sales` / `margin` fields is missing shows up as the sentinel
`"N/A"` in the corresponding column (the call is total, so it cannot
fail). -/
theorem save_metrics_default_sentinel (S : Store) (week b : String) (d : BrandData)
    (M : MetricsDict) (hM : (dictKeys M).Nodup) (hmem : (b, d) ∈ M) :
    ∃ r : MetricRow,
      (save_metrics S week M).find? (fun q => rowKeyMatches week b q) = some r
      ∧ (d.sales = none → r.sales_var = "N/A")
      ∧ (d.margin = none → r.margin_var = "N/A") := by
  refine ⟨mkRow week (b, d), ?_, ?_, ?_⟩
  · rw [save_metrics_eq_filter_append S week M hM, List.find?_append]
    have hleft : (S.filter (fun q => !(keyInDict week M q))).find?
        (fun q => rowKeyMatches week b q) = none := by
      rw [List.find?_eq_none]
      intro q hq hmatch
      rw [List.mem_filter] at hq
      have hw : q.week_id = week ∧ q.brand = b := by
        simpa [rowKeyMatches] using hmatch
      have hkey : keyInDict week M q = true := by
        have hany : M.any (fun x => x.1 == q.brand) = true :=
          List.any_eq_true.mpr ⟨(b, d), hmem, by simp [hw.2]⟩
        simp [keyInDict, hw.1, hany]
      simp [hkey] at hq
    rw [hleft, Option.none_or, find?_map_mkRow hM hmem]
  · intro hs
    simp [mkRow, hs]
  · intro hm
    simp [mkRow, hm]

/-- Witness for C6: `save_metrics("2025-W1", {"FL": {}})` stores
`sales_var = "N/A"` and `margin_var = "N/A"`, and a brand with only
`margin` missing stores `margin_var = "N/A"`. -/
theorem save_metrics_default_sentinel_witness :
    (∃ r : MetricRow,
      (save_metrics [] "2025-W1" [("FL", ⟨none, none⟩)]).find?
          (fun q => rowKeyMatches "2025-W1" "FL" q) = some r
      ∧ r.sales_var = "N/A" ∧ r.margin_var = "N/A")
    ∧ (∃ r : MetricRow,
      (save_metrics [] "2025-W1" [("CT", ⟨some "+1%", none⟩)]).find?
          (fun q => rowKeyMatches "2025-W1" "CT" q) = some r
      ∧ r.margin_var = "N/A") := by
  constructor
  · obtain ⟨r, h1, h2, h3⟩ := save_metrics_default_sentinel [] "2025-W1" "FL" ⟨none, none⟩
        [("FL", ⟨none, none⟩)] (by decide) (List.mem_singleton.mpr rfl)
    exact ⟨r, h1, h2 rfl, h3 rfl⟩
  · obtain ⟨r, h1, h2, h3⟩ := save_metrics_default_sentinel [] "2025-W1" "CT" ⟨some "+1%", none⟩
        [("CT", ⟨some "+1%", none⟩)] (by decide) (List.mem_singleton.mpr rfl)
    exact ⟨r, h1, h3 rfl⟩

/-- The demonstration store of spec §8: week `"2025-W1"` holds brands A
and B, week `"2025-W2"` holds brands B and C. -/
def demoStore : Store :=
  [⟨"2025-W1", "A", "+1%", "+1%"⟩, ⟨"2025-W1", "B", "+2%", "+2%"⟩,
   ⟨"2025-W2", "B", "+3%", "+3%"⟩, ⟨"2025-W2", "C", "+4%", "+4%"⟩]

/-- C9: the call `save_metrics(W, M)` leaves every record of a different week and
every record of week `W` whose brand is not a key of `M` unchanged (the
untouched region of the table is byte-for-byte the same, in order), and
the store produced by a generation action never depends on the narrative
generation outcome — a failed `generate_email` cannot alter saved
metrics. -/
theorem save_metrics_frame (S : Store) (week : String) (M : MetricsDict)
    (hM : (dictKeys M).Nodup) :
    ((save_metrics S week M).filter (fun q => !(keyInDict week M q))
        = S.filter (fun q => !(keyInDict week M q)))
    ∧ (∀ r ∈ S, (r.week_id ≠ week ∨ ∀ p ∈ M, p.1 ≠ r.brand) →
        r ∈ save_metrics S week M)
    ∧ (∀ files g1 g2, (run_action S week files g1).store
        = (run_action S week files g2).store) := by
  refine ⟨?_, ?_, ?_⟩
  · rw [save_metrics_eq_filter_append S week M hM, List.filter_append, List.filter_filter,
        filter_map_mkRow_eq_nil, List.append_nil,
        List.filter_congr (fun a (_ : a ∈ S) => Bool.and_self (!(keyInDict week M a)))]
  · intro r hr hcond
    rw [save_metrics_eq_filter_append S week M hM]
    refine List.mem_append_left _ (List.mem_filter.mpr ⟨hr, ?_⟩)
    have hkey : keyInDict week M r = false := by
      rcases hcond with hweek | hbrand
      · simp [keyInDict, beq_eq_false_iff_ne.mpr hweek]
      · have hany : M.any (fun p => p.1 == r.brand) = false :=
          List.any_eq_false.mpr fun p hp =>
            by simpa [beq_iff_eq] using hbrand p hp
        simp [keyInDict, hany]
    simp [hkey]
  · intro files g1 g2
    unfold run_action
    cases g1 <;> cases g2 <;>
      by_cases h : (mergeFiles [] 0 files).aborted <;> simp [h]

/-- Witness for C9: upserting brand B for week `"2025-W2"` leaves the
week-`"2025-W1"` record of brand A in place. -/
theorem save_metrics_frame_witness :
    (⟨"2025-W1", "A", "+1%", "+1%"⟩ : MetricRow)
      ∈ save_metrics demoStore "2025-W2" [("B", ⟨some "+9%", some "+9%"⟩)] :=
  (save_metrics_frame demoStore "2025-W2" [("B", ⟨some "+9%", some "+9%"⟩)]
      (by decide)).2.1
    ⟨"2025-W1", "A", "+1%", "+1%"⟩ (by decide) (Or.inl (by decide))

/-! ### Properties of the multi-file merge (`dict.update` semantics) -/

theorem lookupDict_eq_none {d : MetricsDict} {b : String} (h : b ∉ dictKeys d) :
    lookupDict d b = none := by
  induction d with
  | nil => rfl
  | cons p d ih =>
    have hpb : p.1 ≠ b := fun he => h (List.mem_cons.mpr (Or.inl he.symm))
    have h' : b ∉ dictKeys d := fun hb => h (List.mem_cons.mpr (Or.inr hb))
    simp [lookupDict, hpb, ih h']

theorem lookupDict_append (d rest : MetricsDict) (b : String) :
    lookupDict (d ++ rest) b
      = match lookupDict d b with
        | some v => some v
        | none => lookupDict rest b := by
  induction d with
  | nil => rfl
  | cons p d ih => by_cases hpb : p.1 = b <;> simp [lookupDict, hpb, ih]

/-- Replacing the value at key `k` in place does not change the lookup of
any other key. -/
theorem lookupDict_map_replace (d : MetricsDict) (k : String) (v : BrandData) {b : String}
    (hbk : b ≠ k) :
    lookupDict (d.map fun p => if p.1 = k then (k, v) else p) b = lookupDict d b := by
  induction d with
  | nil => rfl
  | cons p d ih =>
    by_cases hpk : p.1 = k
    · simp [lookupDict, hpk, Ne.symm hbk, ih]
    · by_cases hpb : p.1 = b <;> simp [lookupDict, hpk, hpb, ih, hbk]

/-- Replacing the value at an existing key `k` makes the lookup of `k`
return the new value. -/
theorem lookupDict_map_replace_self (d : MetricsDict) (k : String) (v : BrandData)
    (h : k ∈ dictKeys d) :
    lookupDict (d.map fun p => if p.1 = k then (k, v) else p) k = some v := by
  induction d with
  | nil => simp [dictKeys] at h
  | cons p d ih =>
    by_cases hpk : p.1 = k
    · simp [lookupDict, hpk]
    · have h' : k ∈ dictKeys d := by
        rcases List.mem_cons.mp h with h1 | h2
        · exact absurd h1.symm hpk
        · exact h2
      simp [lookupDict, hpk, ih h']

/-- Python `d[k] = v`: lookup of `k` afterwards gives `v`, every other key
is untouched. -/
theorem lookupDict_dictInsert (d : MetricsDict) (k : String) (v : BrandData) (b : String) :
    lookupDict (dictInsert d k v) b = if b = k then some v else lookupDict d b := by
  by_cases hbk : b = k
  · subst hbk
    rw [if_pos rfl]
    by_cases hmem : b ∈ dictKeys d
    · rw [dictInsert, if_pos hmem]
      exact lookupDict_map_replace_self d b v hmem
    · rw [dictInsert, if_neg hmem, lookupDict_append, lookupDict_eq_none hmem]
      simp [lookupDict]
  · rw [if_neg hbk]
    by_cases hmem : k ∈ dictKeys d
    · rw [dictInsert, if_pos hmem]
      exact lookupDict_map_replace d k v hbk
    · rw [dictInsert, if_neg hmem, lookupDict_append]
      cases hl : lookupDict d b <;> simp [lookupDict, Ne.symm hbk]

/-- Python `d1.update(d2)` for a dict `d2` (distinct keys): keys of `d2`
win, all other keys fall back to `d1`. -/
theorem lookupDict_dictUpdate (d1 d2 : MetricsDict) (h2 : (dictKeys d2).Nodup) (b : String) :
    lookupDict (dictUpdate d1 d2) b
      = match lookupDict d2 b with
        | some v => some v
        | none => lookupDict d1 b := by
  induction d2 generalizing d1 with
  | nil => rfl
  | cons p d2 ih =>
    have h1 := List.nodup_cons.mp h2
    have step : dictUpdate d1 (p :: d2) = dictUpdate (dictInsert d1 p.1 p.2) d2 := rfl
    rw [step, ih _ h1.2]
    by_cases hpb : p.1 = b
    · have hnone : lookupDict d2 b = none := lookupDict_eq_none (hpb ▸ h1.1)
      simp [lookupDict, hpb, hnone, lookupDict_dictInsert]
    · have hbp : b ≠ p.1 := fun h => hpb h.symm
      cases hd : lookupDict d2 b <;> simp [lookupDict, hpb, hbp, hd, lookupDict_dictInsert]

/-- The value the last file (in caller-supplied order) containing brand
`b` assigns to it, if any. -/
def lastValue (b : String) (files : List MetricsDict) : Option BrandData :=
  files.foldl (fun a d => match lookupDict d b with
    | some v => some v
    | none => a) none

theorem lookupDict_foldl_dictUpdate (files : List MetricsDict) (acc : MetricsDict)
    (h : ∀ d ∈ files, (dictKeys d).Nodup) (b : String) :
    lookupDict (files.foldl dictUpdate acc) b
      = files.foldl (fun a d => match lookupDict d b with
          | some v => some v
          | none => a) (lookupDict acc b) := by
  induction files generalizing acc with
  | nil => rfl
  | cons d files ih =>
    have hd : (dictKeys d).Nodup := h d (List.mem_cons_self d files)
    have hrest : ∀ x ∈ files, (dictKeys x).Nodup := fun x hx => h x (List.mem_cons_of_mem d hx)
    show lookupDict (files.foldl dictUpdate (dictUpdate acc d)) b = _
    rw [ih _ hrest, lookupDict_dictUpdate acc d hd b]
    rfl

/-- C4: after the left-to-right `update` merge of the successfully
extracted per-file dicts, each brand is bound to the values of the last
file containing it. -/
theorem merge_last_write_wins (files : List MetricsDict)
    (h : ∀ d ∈ files, (dictKeys d).Nodup) (b : String) :
    lookupDict (mergeDicts files) b = lastValue b files := by
  have h0 := lookupDict_foldl_dictUpdate files [] h b
  simpa [mergeDicts, lastValue, lookupDict] using h0

/-- Witness for C4: merging F1 = {A: +1%/+1%} then F2 = {A: +2%/+2%}
binds brand A to the values of F2. -/
theorem merge_last_write_wins_witness :
    lookupDict (mergeDicts [[("A", ⟨some "+1%", some "+1%"⟩)],
        [("A", ⟨some "+2%", some "+2%"⟩)]]) "A"
      = some ⟨some "+2%", some "+2%"⟩ :=
  (merge_last_write_wins [[("A", ⟨some "+1%", some "+1%"⟩)],
      [("A", ⟨some "+2%", some "+2%"⟩)]] (by decide) "A").trans (by decide)

/-! ### The batch loop: per-file failure behaviour -/

/-- The dicts of the files whose extraction and JSON parse succeeded, in
caller order. -/
def parsedDicts : List FileOutcome → List MetricsDict
  | [] => []
  | FileOutcome.parsed d :: rest => d :: parsedDicts rest
  | FileOutcome.providerError :: rest => parsedDicts rest
  | FileOutcome.badJson :: rest => parsedDicts rest

/-- Did this file produce unparseable output (`json.JSONDecodeError`)? -/
def isBadJson : FileOutcome → Bool
  | FileOutcome.badJson => true
  | _ => false

/-- Without a provider error, the extraction loop never aborts: it merges
the parsed dicts in order and counts one warning per unparseable file. -/
theorem mergeFiles_no_provider (files : List FileOutcome) (acc : MetricsDict) (w : Nat)
    (h : FileOutcome.providerError ∉ files) :
    mergeFiles acc w files
      = ⟨(parsedDicts files).foldl dictUpdate acc, w + files.countP isBadJson, false⟩ := by
  induction files generalizing acc w with
  | nil => simp [mergeFiles, parsedDicts]
  | cons f rest ih =>
    have hrest : FileOutcome.providerError ∉ rest := fun hm => h (List.mem_cons_of_mem f hm)
    cases f with
    | providerError => exact absurd (List.mem_cons_self _ _) h
    | badJson =>
      rw [show mergeFiles acc w (FileOutcome.badJson :: rest)
            = mergeFiles acc (w + 1) rest from rfl, ih _ _ hrest]
      simp [parsedDicts, isBadJson, List.countP_cons]
      omega
    | parsed d =>
      rw [show mergeFiles acc w (FileOutcome.parsed d :: rest)
            = mergeFiles (dictUpdate acc d) w rest from rfl, ih _ _ hrest]
      simp [parsedDicts, isBadJson, List.countP_cons]

/-- C2 (amended): when no file raises a provider error, the batch
continues past unparseable files, reports one warning per such file, does
not fail, and stores exactly the left-to-right merge of the successfully
parsed files. -/
theorem run_action_batch_resilience (S : Store) (week : String) (files : List FileOutcome)
    (t : String) (h : FileOutcome.providerError ∉ files) :
    run_action S week files (GenOutcome.ok t)
      = ⟨save_metrics S week (mergeDicts (parsedDicts files)),
         files.countP isBadJson, false, true⟩ := by
  unfold run_action
  rw [mergeFiles_no_provider files [] 0 h]
  simp [mergeDicts]

/-- The three-file batch of spec §8 property 7, except that file 2 fails
with a provider error instead of unparseable output. -/
def providerFailBatch : List FileOutcome :=
  [FileOutcome.parsed [("A", ⟨some "+1%", some "+1%"⟩)],
   FileOutcome.providerError,
   FileOutcome.parsed [("C", ⟨some "+3%", some "+3%"⟩)]]

/-- C2 counterexample: when file 2 of 3 fails with a provider error (an
exception from `extract_metrics_from_file`), the action does NOT continue
with the remaining files — it aborts fatally (`st.error`) and stores
nothing, contradicting the claim that any extraction failure is recovered
per file with the merge of files 1 and 3 stored. -/
theorem run_action_provider_error_counterexample :
    ¬ ((run_action [] "2025-W1" providerFailBatch (GenOutcome.ok "brief")).fatalError = false
       ∧ (run_action [] "2025-W1" providerFailBatch (GenOutcome.ok "brief")).store
          = save_metrics [] "2025-W1"
              (mergeDicts [[("A", ⟨some "+1%", some "+1%"⟩)],
                [("C", ⟨some "+3%", some "+3%"⟩)]])) := by
  decide

/-- The three-file batch of spec §8 property 7: file 2 returns
unparseable output. -/
def warnBatch : List FileOutcome :=
  [FileOutcome.parsed [("A", ⟨some "+1%", some "+1%"⟩)],
   FileOutcome.badJson,
   FileOutcome.parsed [("C", ⟨some "+3%", some "+3%"⟩)]]

/-- Witness for amended C2: with file 2 unparseable, the action reports
exactly one warning, no fatal error, and stores the merge of files 1 and
3 only. -/
theorem run_action_batch_resilience_witness :
    run_action [] "2025-W1" warnBatch (GenOutcome.ok "brief")
      = ⟨save_metrics [] "2025-W1" (mergeDicts (parsedDicts warnBatch)), 1, false, true⟩ :=
  (run_action_batch_resilience [] "2025-W1" warnBatch "brief" (by decide)).trans (by decide)

/-! ### The comparison engine -/

/-- Under the primary-key invariant, the brands of the frame of one week are
distinct. -/
theorem get_metrics_brands_nodup {S : Store} (hS : WellFormed S) (w : String) :
    ((get_metrics S w).map MetricsEntry.brand).Nodup := by
  induction S with
  | nil => exact List.nodup_nil
  | cons r S ih =>
    have h1 : (r.week_id, r.brand) ∉ S.map (fun q => (q.week_id, q.brand))
        ∧ WellFormed S := List.nodup_cons.mp hS
    by_cases hw : r.week_id = w
    · have hstep : get_metrics (r :: S) w
          = ⟨r.brand, r.sales_var, r.margin_var⟩ :: get_metrics S w := by
        simp [get_metrics, hw]
      rw [hstep, List.map_cons]
      refine List.nodup_cons.mpr ⟨?_, ih h1.2⟩
      intro hmem
      obtain ⟨e, he, hbe⟩ := List.mem_map.mp hmem
      obtain ⟨q, hq, rfl⟩ := by
        have he' := he
        simp only [get_metrics, List.mem_map, List.mem_filter] at he'
        exact he'
      have hqr : q.brand = r.brand := hbe
      exact h1.1 (List.mem_map.mpr ⟨q, hq.1, by rw [beq_iff_eq.mp hq.2, hw, hqr]⟩)
    · have hstep : get_metrics (r :: S) w = get_metrics S w := by
        simp [get_metrics, hw]
      rw [hstep]
      exact ih h1.2

/-- A brand search in a frame with distinct brands finds the unique entry
carrying that brand. -/
theorem find?_brand_eq_some {df : List MetricsEntry}
    (hnd : (df.map MetricsEntry.brand).Nodup) {e : MetricsEntry} (he : e ∈ df) :
    df.find? (fun q => q.brand == e.brand) = some e := by
  induction df with
  | nil => cases he
  | cons x df ih =>
    have h1 := List.nodup_cons.mp hnd
    rcases List.mem_cons.mp he with heq | hmem
    · rw [← heq]
      simp [List.find?_cons]
    · have hxe : x.brand ≠ e.brand := by
        intro hx
        exact h1.1 (hx ▸ List.mem_map.mpr ⟨e, hmem, rfl⟩)
      rw [List.find?_cons, show (x.brand == e.brand) = false from beq_eq_false_iff_ne.mpr hxe]
      exact ih h1.2 hmem

/-- Brands are preserved by the left half of the outer merge. -/
theorem leftRow_brand (df2 : List MetricsEntry) (r : MetricsEntry) :
    (leftRow df2 r).brand = r.brand := by
  unfold leftRow
  cases df2.find? (fun q => q.brand == r.brand) <;> rfl

/-- The brand column of the outer merge: the brands of week 1 followed by
the week-2-only brands. -/
theorem outerMerge_brands (df1 df2 : List MetricsEntry) :
    (outerMerge df1 df2).map ComparisonRow.brand
      = df1.map MetricsEntry.brand
        ++ (df2.filter fun q => !(df1.any fun r => r.brand == q.brand)).map
            MetricsEntry.brand := by
  unfold outerMerge
  rw [List.map_append, List.map_map, List.map_map]
  congr 1
  exact List.map_congr_left fun r _ => leftRow_brand df2 r

/-- C1: for two weeks that both have stored records, the comparison is a
full outer join on brand: the output brands are exactly the brands stored
for either week, each exactly once; a brand stored for both weeks gets
one row with the values of both weeks, and a brand stored for one week gets one
row whose other-week fields are `none`. -/
theorem get_comparison_data_outer_join (S : Store) (hS : WellFormed S)
    (w1 w2 : String) (h1 : get_metrics S w1 ≠ []) (h2 : get_metrics S w2 ≠ []) :
    (((get_comparison_data S w1 w2).map ComparisonRow.brand).Nodup
      ∧ ∀ b, b ∈ (get_comparison_data S w1 w2).map ComparisonRow.brand
          ↔ (b ∈ (get_metrics S w1).map MetricsEntry.brand
             ∨ b ∈ (get_metrics S w2).map MetricsEntry.brand))
    ∧ (∀ e1 e2, e1 ∈ get_metrics S w1 → e2 ∈ get_metrics S w2 →
        e2.brand = e1.brand →
        (⟨e1.brand, some e1.sales_var, some e1.margin_var,
          some e2.sales_var, some e2.margin_var⟩ : ComparisonRow)
          ∈ get_comparison_data S w1 w2)
    ∧ (∀ e1, e1 ∈ get_metrics S w1 → (∀ e2 ∈ get_metrics S w2, e2.brand ≠ e1.brand) →
        (⟨e1.brand, some e1.sales_var, some e1.margin_var, none, none⟩ : ComparisonRow)
          ∈ get_comparison_data S w1 w2)
    ∧ (∀ e2, e2 ∈ get_metrics S w2 → (∀ e1 ∈ get_metrics S w1, e1.brand ≠ e2.brand) →
        (⟨e2.brand, none, none, some e2.sales_var, some e2.margin_var⟩ : ComparisonRow)
          ∈ get_comparison_data S w1 w2) := by
  have hmain : get_comparison_data S w1 w2 = outerMerge (get_metrics S w1) (get_metrics S w2) := by
    unfold get_comparison_data
    rw [if_pos ⟨h1, h2⟩]
  have hb1 := get_metrics_brands_nodup hS w1
  have hb2 := get_metrics_brands_nodup hS w2
  rw [hmain]
  refine ⟨⟨?_, ?_⟩, ?_, ?_, ?_⟩
  · rw [outerMerge_brands, List.nodup_append]
    refine ⟨hb1, List.Nodup.sublist ((List.filter_sublist _).map MetricsEntry.brand) hb2, ?_⟩
    intro b hbl hbr
    obtain ⟨q, hq, rfl⟩ := List.mem_map.mp hbr
    have hq2 := List.mem_filter.mp hq
    have hany : ((get_metrics S w1).any fun r => r.brand == q.brand) = true := by
      obtain ⟨e, he, hbe⟩ := List.mem_map.mp hbl
      exact List.any_eq_true.mpr ⟨e, he, beq_iff_eq.mpr hbe⟩
    rw [hany] at hq2
    exact absurd hq2.2 (by simp)
  · intro b
    rw [outerMerge_brands, List.mem_append]
    constructor
    · rintro (hl | hr)
      · exact Or.inl hl
      · obtain ⟨q, hq, rfl⟩ := List.mem_map.mp hr
        exact Or.inr (List.mem_map.mpr ⟨q, (List.mem_filter.mp hq).1, rfl⟩)
    · rintro (hl | hr)
      · exact Or.inl hl
      · by_cases hin : b ∈ (get_metrics S w1).map MetricsEntry.brand
        · exact Or.inl hin
        · obtain ⟨q, hq, rfl⟩ := List.mem_map.mp hr
          refine Or.inr (List.mem_map.mpr ⟨q, List.mem_filter.mpr ⟨hq, ?_⟩, rfl⟩)
          have : (get_metrics S w1).any (fun r => r.brand == q.brand) = false :=
            List.any_eq_false.mpr fun r hrm hrb =>
              hin (List.mem_map.mpr ⟨r, hrm, beq_iff_eq.mp hrb⟩)
          rw [this]
          rfl
  · intro e1 e2 he1 he2 hbeq
    refine List.mem_append_left _ (List.mem_map.mpr ⟨e1, he1, ?_⟩)
    have hfind : (get_metrics S w2).find? (fun q => q.brand == e1.brand) = some e2 := by
      rw [← hbeq]
      exact find?_brand_eq_some hb2 he2
    unfold leftRow
    rw [hfind]
  · intro e1 he1 hnone
    refine List.mem_append_left _ (List.mem_map.mpr ⟨e1, he1, ?_⟩)
    have hfind : (get_metrics S w2).find? (fun q => q.brand == e1.brand) = none :=
      List.find?_eq_none.mpr fun q hq hqb =>
        hnone q hq (beq_iff_eq.mp hqb)
    unfold leftRow
    rw [hfind]
  · intro e2 he2 hnone
    refine List.mem_append_right _ (List.mem_map.mpr ⟨e2, List.mem_filter.mpr ⟨he2, ?_⟩, rfl⟩)
    have : (get_metrics S w1).any (fun r => r.brand == e2.brand) = false :=
      List.any_eq_false.mpr fun r hrm hrb => hnone r hrm (beq_iff_eq.mp hrb)
    rw [this]
    rfl

/-- Witness for C1: with `"2025-W1"` holding {A, B} and `"2025-W2"`
holding {B, C}, the comparison has exactly 3 rows with distinct brands. -/
theorem get_comparison_data_outer_join_witness :
    (get_comparison_data demoStore "2025-W1" "2025-W2").length = 3
    ∧ ((get_comparison_data demoStore "2025-W1" "2025-W2").map ComparisonRow.brand).Nodup :=
  ⟨by decide,
   (get_comparison_data_outer_join demoStore (by decide) "2025-W1" "2025-W2"
      (by decide) (by decide)).1.1⟩

/-- C3: when exactly one of the two weeks has stored records, the
comparison returns the frame of the non-empty week unchanged — one row
per brand of that week, with the sales/margin fields of the empty week `none`
(absent), never the stored sentinel `"N/A"`. -/
theorem get_comparison_data_single_week (S : Store) (w1 w2 : String) :
    (get_metrics S w1 ≠ [] → get_metrics S w2 = [] →
      get_comparison_data S w1 w2
        = (get_metrics S w1).map fun r =>
            ⟨r.brand, some r.sales_var, some r.margin_var, none, none⟩)
    ∧ (get_metrics S w1 = [] → get_metrics S w2 ≠ [] →
      get_comparison_data S w1 w2
        = (get_metrics S w2).map fun q =>
            ⟨q.brand, none, none, some q.sales_var, some q.margin_var⟩) := by
  constructor
  · intro h1 h2
    simp [get_comparison_data, h1, h2]
  · intro h1 h2
    simp [get_comparison_data, h1, h2]

/-- Witness for C3: comparing the stored week `"2025-W1"` with the
never-seen week `"2099-W9"` yields one row per brand of `"2025-W1"`,
week-2 fields absent. -/
theorem get_comparison_data_single_week_witness :
    get_comparison_data demoStore "2025-W1" "2099-W9"
      = [⟨"A", some "+1%", some "+1%", none, none⟩,
         ⟨"B", some "+2%", some "+2%", none, none⟩] :=
  ((get_comparison_data_single_week demoStore "2025-W1" "2099-W9").1
    (by decide) (by decide)).trans (by decide)

/-- C8: comparing two weeks that both have no stored records returns the
empty sequence (and, being a total function, raises no error). -/
theorem get_comparison_data_empty (S : Store) (w1 w2 : String)
    (h1 : get_metrics S w1 = []) (h2 : get_metrics S w2 = []) :
    get_comparison_data S w1 w2 = [] := by
  simp [get_comparison_data, h1, h2]

/-- Witness for C8: two never-seen weeks compare to the empty sequence. -/
theorem get_comparison_data_empty_witness :
    get_comparison_data demoStore "2099-W1" "2099-W2" = [] :=
  get_comparison_data_empty demoStore "2099-W1" "2099-W2" (by decide) (by decide)

/-- C7: the function `get_all_weeks` lists exactly the week ids having at least one
stored record, each exactly once, sorted descending. -/
theorem get_all_weeks_spec (S : Store) :
    (get_all_weeks S).Nodup
    ∧ (∀ w, w ∈ get_all_weeks S ↔ ∃ r ∈ S, r.week_id = w)
    ∧ List.Sorted (fun a b => b ≤ a) (get_all_weeks S) := by
  have hperm : (get_all_weeks S).Perm (S.map MetricRow.week_id).dedup :=
    List.perm_insertionSort _ _
  refine ⟨?_, ?_, ?_⟩
  · exact hperm.nodup_iff.mpr (List.nodup_dedup _)
  · intro w
    rw [hperm.mem_iff, List.mem_dedup, List.mem_map]
  · exact List.sorted_insertionSort _ _

/-- C10 counterexample: a non-multipart message with a non-text content
type — here a `%PDF` attachment, bytes `[37, 80, 68, 70]` — makes
`msg.get_content()` return a bytes object, and `body.strip()` keeps it
bytes, so `parse_eml_content` returns a bytes value, not a string,
refuting the claim that it returns a string for every input. -/
theorem parse_eml_content_counterexample :
    parse_eml_content (ParseOutcome.ok (EmlMsg.single (Payload.binary [37, 80, 68, 70])))
      = EmlResult.bytes [37, 80, 68, 70]
    ∧ ¬ ∃ s, parse_eml_content
        (ParseOutcome.ok (EmlMsg.single (Payload.binary [37, 80, 68, 70])))
          = EmlResult.str s := by
  refine ⟨by decide, ?_⟩
  rintro ⟨s, hs⟩
  rw [show parse_eml_content (ParseOutcome.ok (EmlMsg.single (Payload.binary [37, 80, 68, 70])))
      = EmlResult.bytes [37, 80, 68, 70] from by decide] at hs
  cases hs

/-- C10 (amended): `parse_eml_content` never raises: an internal
exception yields a string starting with `"[Error parsing EML:"`, a falsy
extracted body (empty text, or an empty bytes payload) yields the
fallback string, a non-empty text body yields the stripped text — but a
single-part message with a non-empty bytes payload (non-text content
type) yields the stripped bytes, not a string. -/
theorem parse_eml_content_spec (o : ParseOutcome) :
    (∀ e, o = ParseOutcome.failure e →
        parse_eml_content o = EmlResult.str ("[Error parsing EML: " ++ e ++ "]")
        ∧ ("[Error parsing EML:" : String).toList
            <+: ("[Error parsing EML: " ++ e ++ "]").toList)
    ∧ (∀ msg, o = ParseOutcome.ok msg → payloadTruthy (emlBody msg) = false →
        parse_eml_content o = EmlResult.str "[Could not extract text from EML]")
    ∧ (∀ msg s, o = ParseOutcome.ok msg → emlBody msg = Payload.text s → s ≠ "" →
        parse_eml_content o = EmlResult.str s.trim)
    ∧ (∀ msg bs, o = ParseOutcome.ok msg → emlBody msg = Payload.binary bs → bs ≠ [] →
        parse_eml_content o = EmlResult.bytes (bytesStrip bs)) := by
  refine ⟨?_, ?_, ?_, ?_⟩
  · rintro e rfl
    refine ⟨rfl, ?_⟩
    have hsplit : ("[Error parsing EML: " : String).data
        = ("[Error parsing EML:" : String).data ++ (" " : String).data := by decide
    have hdata : ("[Error parsing EML: " ++ e ++ "]").toList
        = ("[Error parsing EML:" : String).data
          ++ ((" " : String).data ++ e.data ++ ("]" : String).data) := by
      show ("[Error parsing EML: " ++ e ++ "]").data = _
      rw [String.data_append, String.data_append, hsplit]
      simp [List.append_assoc]
    rw [hdata]
    exact List.prefix_append _ _
  · rintro msg rfl hbody
    simp [parse_eml_content, hbody]
  · rintro msg s rfl hbody hne
    have ht : payloadTruthy (Payload.text s) = true := by
      simp [payloadTruthy, hne]
    simp [parse_eml_content, hbody, ht, payloadStrip]
  · rintro msg bs rfl hbody hne
    have ht : payloadTruthy (Payload.binary bs) = true := by
      cases bs with
      | nil => exact absurd rfl hne
      | cons x xs => rfl
    simp [parse_eml_content, hbody, ht, payloadStrip]

/-- Witness for amended C10 at a concrete exception and a concrete
body-less multipart message. -/
theorem parse_eml_content_spec_witness :
    parse_eml_content (ParseOutcome.failure "boom")
        = EmlResult.str "[Error parsing EML: boom]"
    ∧ parse_eml_content (ParseOutcome.ok (EmlMsg.multipart []))
        = EmlResult.str "[Could not extract text from EML]" :=
  ⟨((parse_eml_content_spec (ParseOutcome.failure "boom")).1 "boom" rfl).1,
   (parse_eml_content_spec (ParseOutcome.ok (EmlMsg.multipart []))).2.1
     (EmlMsg.multipart []) rfl (by decide)⟩

end CEOBrief
